import Mathlib

/-!
Shallow embedding of the `egui-any` value editor (src/lib.rs).

Modelling conventions:
* Rust `i64` is modelled as unbounded `Int` (no claim exercises wrap-around or
  the saturating float-to-int cast at the i64 extremes).
* Rust `f64` is modelled as `ℚ`: every finite float is a rational, and the only
  float operations the code performs are comparison, `min`/`max`/`clamp`,
  truncation to integer and widening from integer, which coincide with the
  rational ones on finite floats in the i64 range.  NaN/infinity are outside
  the model.
* `hashbrown::HashMap<String, Value>` is modelled as an association list with
  pairwise-distinct keys (the hash-map representation invariant);
  `HashMap::insert` replaces the value of an existing key in place.
* One frame of immediate-mode UI is modelled as a pure function from the node's
  inputs (schema, value, persisted per-id state, style) and the frame's user
  interaction to the rendered row, the new value and the new persisted state.
-/

namespace EguiAny

/-- Model of `Desc` from src/lib.rs: top-level description of a value. -/
inductive Desc where
  | bool
  | int (min max : Option Int)
  | float (min max : Option ℚ)
  | string (variants : Option (List String))
  | list (elem_desc : Option Desc)
  | map (value_desc : Option Desc)
deriving Repr

/-- Model of `Value` from src/lib.rs: top-level value.  The map payload is the
association list of the hash map's entries. -/
inductive Value where
  | bool (b : Bool)
  | int (i : Int)
  | float (q : ℚ)
  | string (s : String)
  | list (xs : List Value)
  | map (m : List (String × Value))
deriving Repr

/-- Rust `Desc::kind`. -/
def Desc.kind : Desc → String
  | .bool => "bool"
  | .int _ _ => "int"
  | .float _ _ => "float"
  | .string _ => "string"
  | .list _ => "list"
  | .map _ => "map"

/-- Rust `Value::kind`. -/
def Value.kind : Value → String
  | .bool _ => "bool"
  | .int _ => "int"
  | .float _ => "float"
  | .string _ => "string"
  | .list _ => "list"
  | .map _ => "map"

/-- Rust `Desc::default_value`. -/
def Desc.default_value : Desc → Value
  | .bool => .bool false
  | .int mn _ => .int (mn.getD 0)
  | .float mn _ => .float (mn.getD 0)
  | .string variants =>
    match variants.bind List.head? with
    | none => .string ""
    | some s => .string s
  | .list _ => .list []
  | .map _ => .map []

/-- The items the probe emits into the row it renders this frame (labels,
buttons, and the external leaf editors it delegates to). -/
inductive RenderItem where
  | strong (s : String)
  | weak (s : String)
  | smallButton (s : String)
  | editorBool
  | editorInt (min max : Option Int)
  | editorFloat (min max : Option ℚ)
  | editorString
  | comboBox (selected : String) (variants : List String)
  | textEdit (s : String)
  | descEditor
deriving Repr, DecidableEq

/-- The part of `egui_probe::Style` the code reads: the add/remove button
texts. -/
structure Style where
  add_button_text : String
  remove_button_text : String

/-- Per-id state the probe persists in the host's id-keyed store across
frames: the inferred sub-schema (`mydesc`) and the pending map key
(`NewKey`). -/
structure ProbeState where
  mydesc : Desc
  newKey : String

/-- One frame's user interaction at this node: whether the row's single small
button was clicked, which combo-box variant was selected (if any), the value an
external leaf editor leaves in place after the frame (none = untouched), the
pending-key text after editing, and the edited inferred schema. -/
structure Interaction where
  clicked : Bool
  select : Option String
  editBool : Option Bool
  editInt : Option Int
  editFloat : Option ℚ
  editString : Option String
  editKey : Option String
  editDesc : Option Desc

/-- A frame with no widget interaction at all. -/
def Interaction.idle : Interaction :=
  ⟨false, none, none, none, none, none, none, none⟩

/-- Result of one probe call: the rendered row, the (possibly mutated) value,
and the persisted per-id state after the frame. -/
structure ProbeResult where
  render : List RenderItem
  value : Value
  state : ProbeState

/-- Rust `x.clamp(min, max)` on `i64` (reached only with `min <= max`, so the
panic branch is unreachable). -/
def clampI (x mn mx : Int) : Int :=
  if x < mn then mn else if x > mx then mx else x

/-- Rust `x.clamp(min, max)` on `f64`, on the rational model. -/
def clampQ (x mn mx : ℚ) : ℚ :=
  if x < mn then mn else if x > mx then mx else x

/-- Rust `q as i64`: truncation toward zero, as `Int.tdiv` of the reduced
numerator by the denominator (saturation at the i64 extremes is outside the
idealised model). -/
def ratTrunc (q : ℚ) : Int :=
  q.num.tdiv q.den

/-- Rust `{}` Display of an `f64`, on the rational model; exact on integral
values (`5.0` displays as `5`), approximate otherwise. -/
def ratDisplay (q : ℚ) : String :=
  if q.den = 1 then toString q.num else toString q

/-- Rust `{x:0.1}` fixed one-decimal Display of an `f64`, on the rational
model (tie-breaking of the host formatter is not modelled; no claim inspects
this label). -/
def ratDisplay1 (q : ℚ) : String :=
  let n : Int := round (|q| * 10)
  let s := toString (n / 10) ++ "." ++ toString (n % 10)
  if q < 0 then "-" ++ s else s

/-- Rust `invalid_range` from src/lib.rs: the single strong label it renders,
parameterised by the Display forms of the bounds. -/
def invalid_range (minS maxS : String) : RenderItem :=
  .strong ("Invalid range. `min = " ++ minS ++ "` must be not greater than `max = "
    ++ maxS ++ "`.")

/-- Rust `convert_to_string` from src/lib.rs: renders the mismatch row with a
"Convert to" button and reports the string to convert to iff the button was
clicked. -/
def convert_to_string (clicked : Bool) (s kindLabel : String) :
    List RenderItem × Option String :=
  ([.strong ("Expected string, but is " ++ kindLabel ++ " instead"),
    .smallButton ("Convert to " ++ s.quote), .strong "?"],
   if clicked then some s else none)

/-- Rust `HashMap::insert` on the association-list model: replace the value of an
existing key in place, otherwise append the new entry. -/
def mapInsert : List (String × Value) → String → Value → List (String × Value)
  | [], k, v => [(k, v)]
  | (k', v') :: rest, k, v =>
    if k' = k then (k, v) :: rest else (k', v') :: mapInsert rest k v

/-- Number of entries of the map carrying key `k`. -/
def countKey (m : List (String × Value)) (k : String) : Nat :=
  (m.filter (fun p => p.1 == k)).length

/-- Rust `HashMap` lookup on the association-list model. -/
def lookupKey (m : List (String × Value)) (k : String) : Option Value :=
  (m.find? (fun p => p.1 == k)).map Prod.snd

/-- Rust `ValueProbe::probe`, `Some(Desc::Int { .. })` arm, after the `reset_to`
guard has passed (so the range is valid when both bounds are present). -/
def probeIntGo (mn mx : Option Int) (reset_to : Int) (v : Value)
    (st : ProbeState) (i : Interaction) : ProbeResult :=
  match v with
  | .int n =>
    -- the matched branch delegates to the (possibly range-aware) external
    -- numeric editor; `editInt` is the value that editor leaves in place
    ⟨[.editorInt mn mx], .int (i.editInt.getD n), st⟩
  | .float q =>
    let f := ratTrunc q
    let x := match mn, mx with
      | none, none => f
      | some a, none => max a f
      | none, some b => min b f
      | some a, some b => clampI f a b
    ⟨[.strong ("Expected integer, but is " ++ (Value.float q).kind ++ " instead"),
      .smallButton ("Convert to " ++ toString x), .strong "?"],
     if i.clicked then .int x else .float q, st⟩
  | _ =>
    ⟨[.strong ("Expected integer, but is " ++ v.kind ++ " instead"),
      .smallButton ("Reset to " ++ toString reset_to), .strong "?"],
     if i.clicked then .int reset_to else v, st⟩

/-- Rust `ValueProbe::probe`, `Some(Desc::Int { .. })` arm: compute `reset_to`,
short-circuiting to `invalid_range` when both bounds are present and
`min > max`. -/
def probeInt (mn mx : Option Int) (v : Value) (st : ProbeState)
    (i : Interaction) : ProbeResult :=
  match mn, mx with
  | none, none => probeIntGo none none 0 v st i
  | some a, none => probeIntGo (some a) none (max a 0) v st i
  | none, some b => probeIntGo none (some b) (min b 0) v st i
  | some a, some b =>
    if a ≤ b then probeIntGo (some a) (some b) (clampI 0 a b) v st i
    else ⟨[invalid_range (toString a) (toString b)], v, st⟩

/-- Rust `ValueProbe::probe`, `Some(Desc::Float { .. })` arm, after the `reset_to`
guard has passed.  The mismatch rows print "Expected integer" exactly as the
source does (src/lib.rs lines 237 and 252). -/
def probeFloatGo (mn mx : Option ℚ) (reset_to : ℚ) (v : Value)
    (st : ProbeState) (i : Interaction) : ProbeResult :=
  match v with
  | .float q => ⟨[.editorFloat mn mx], .float (i.editFloat.getD q), st⟩
  | .int n =>
    let f : ℚ := (n : ℚ)
    let x := match mn, mx with
      | none, none => f
      | some a, none => max a f
      | none, some b => min b f
      | some a, some b => clampQ f a b
    ⟨[.strong ("Expected integer, but is " ++ (Value.int n).kind ++ " instead"),
      .smallButton ("Convert to " ++ ratDisplay1 x), .strong "?"],
     if i.clicked then .float x else .int n, st⟩
  | _ =>
    ⟨[.strong ("Expected integer, but is " ++ v.kind ++ " instead"),
      .smallButton ("Reset to " ++ ratDisplay reset_to), .strong "?"],
     if i.clicked then .float reset_to else v, st⟩

/-- Rust `ValueProbe::probe`, `Some(Desc::Float { .. })` arm. -/
def probeFloat (mn mx : Option ℚ) (v : Value) (st : ProbeState)
    (i : Interaction) : ProbeResult :=
  match mn, mx with
  | none, none => probeFloatGo none none 0 v st i
  | some a, none => probeFloatGo (some a) none (max a 0) v st i
  | none, some b => probeFloatGo none (some b) (min b 0) v st i
  | some a, some b =>
    if a ≤ b then probeFloatGo (some a) (some b) (clampQ 0 a b) v st i
    else ⟨[invalid_range (ratDisplay a) (ratDisplay b)], v, st⟩

/-- The `_` mismatch arm of the `Some(Desc::String { .. })` match when
`variants` is `Some`: reset to the first variant (empty string when the
variant list is empty). -/
def resetToFirstVariant (variants : Option (List String)) (v : Value)
    (st : ProbeState) (i : Interaction) : ProbeResult :=
  let d := ((variants.getD []).head?).getD ""
  ⟨[.strong ("Expected string, but is " ++ v.kind ++ " instead"),
    .smallButton "Reset to default value", .strong "?"],
   if i.clicked then .string d else v, st⟩

/-- Glue for the `convert_to_string` call sites: apply the reported conversion
to the value. -/
def applyConvert (p : List RenderItem × Option String) (v : Value)
    (st : ProbeState) : ProbeResult :=
  ⟨p.1, match p.2 with | some s => .string s | none => v, st⟩

/-- Rust `ValueProbe::probe`, `Some(Desc::String { .. })` arm. -/
def probeString (variants : Option (List String)) (v : Value)
    (st : ProbeState) (i : Interaction) : ProbeResult :=
  match v with
  | .string s =>
    match variants with
    | none => ⟨[.editorString], .string (i.editString.getD s), st⟩
    | some vs =>
      let s2 := match i.select with
        | some t => if t ∈ vs then t else s
        | none => s
      ⟨[.comboBox s vs], .string s2, st⟩
  | .bool b =>
    if variants.isNone then
      applyConvert (convert_to_string i.clicked (toString b) "bool") (.bool b) st
    else resetToFirstVariant variants (.bool b) st i
  | .int n =>
    if variants.isNone then
      applyConvert (convert_to_string i.clicked (toString n) "int") (.int n) st
    else resetToFirstVariant variants (.int n) st i
  | .float q =>
    if variants.isNone then
      applyConvert (convert_to_string i.clicked (ratDisplay q) "float") (.float q) st
    else resetToFirstVariant variants (.float q) st i
  | v =>
    if variants.isNone then
      ⟨[.strong ("Expected string, but is " ++ v.kind ++ " instead"),
        .smallButton "Reset to empty string", .strong "?"],
       if i.clicked then .string "" else v, st⟩
    else resetToFirstVariant variants v st i

/-- Rust `ValueProbe::probe`, `Some(Desc::List { .. })` arm. -/
def probeList (elem : Option Desc) (v : Value) (st : ProbeState)
    (style : Style) (i : Interaction) : ProbeResult :=
  match v with
  | .list elems =>
    match elem with
    | none =>
      -- the inferred element schema is fetched from the id-keyed store,
      -- edited through its own probe, used by the add button, and stored back
      let d := i.editDesc.getD st.mydesc
      ⟨[.descEditor, .smallButton style.add_button_text],
       .list (if i.clicked then elems ++ [d.default_value] else elems),
       { st with mydesc := d }⟩
    | some d =>
      ⟨[.weak d.kind, .smallButton style.add_button_text],
       .list (if i.clicked then elems ++ [d.default_value] else elems), st⟩
  | _ =>
    ⟨[.strong ("Expected list, but is " ++ v.kind ++ " instead"),
      .smallButton "Reset to empty list", .strong "?"],
     if i.clicked then .list [] else v, st⟩

/-- Rust `ValueProbe::probe`, `Some(Desc::Map { .. })` arm.  The mismatch row
prints "Expected list" exactly as the source does (src/lib.rs line 452). -/
def probeMap (vdesc : Option Desc) (v : Value) (st : ProbeState)
    (style : Style) (i : Interaction) : ProbeResult :=
  match v with
  | .map values =>
    -- pending key fetched from the store, edited by the text field, then
    -- `mem::take`n on click (insert, then the stored buffer becomes empty)
    let key0 := i.editKey.getD st.newKey
    match vdesc with
    | none =>
      let d := i.editDesc.getD st.mydesc
      ⟨[.descEditor, .textEdit key0, .smallButton style.add_button_text],
       .map (if i.clicked then mapInsert values key0 d.default_value else values),
       { mydesc := d, newKey := if i.clicked then "" else key0 }⟩
    | some d =>
      ⟨[.weak d.kind, .textEdit key0, .smallButton style.add_button_text],
       .map (if i.clicked then mapInsert values key0 d.default_value else values),
       { st with newKey := if i.clicked then "" else key0 }⟩
  | _ =>
    ⟨[.strong ("Expected list, but is " ++ v.kind ++ " instead"),
      .smallButton "Reset to empty map", .strong "?"],
     if i.clicked then .map [] else v, st⟩

/-- Rust `ValueProbe::probe` (src/lib.rs lines 111-464), one frame at one node. -/
def probe (desc : Option Desc) (v : Value) (st : ProbeState) (style : Style)
    (i : Interaction) : ProbeResult :=
  match desc with
  | none =>
    -- render the inferred schema's own probe and persist it; the value is
    -- only touched by the recursion (iterate_inner), not here
    ⟨[.descEditor], v, { st with mydesc := i.editDesc.getD st.mydesc }⟩
  | some .bool =>
    match v with
    | .bool b => ⟨[.editorBool], .bool (i.editBool.getD b), st⟩
    | v =>
      ⟨[.strong ("Expected boolean, but is " ++ v.kind ++ " instead"),
        .smallButton "Reset to false", .strong "?"],
       if i.clicked then .bool false else v, st⟩
  | some (.int mn mx) => probeInt mn mx v st i
  | some (.float mn mx) => probeFloat mn mx v st i
  | some (.string variants) => probeString variants v st i
  | some (.list elem) => probeList elem v st style i
  | some (.map vdesc) => probeMap vdesc v st style i

/-- Rust `DeleteMe` from src/lib.rs: the delete-decorator's flag. -/
structure DeleteMe where
  delete : Bool

/-- Rust `DeleteMe::probe`: render the inner probe, then the remove button; a click
sets the flag. -/
def DeleteMe.proberow (dm : DeleteMe) (removeClicked : Bool) : DeleteMe :=
  { delete := dm.delete || removeClicked }

/-- The `retain_mut` loop of `ValueProbe::iterate_inner` for `Value::List`
(src/lib.rs lines 488-505): each element is rendered through a fresh
`DeleteMe` wrapper (whose inner probe may edit it, `childUpdate`), the running
index `idx` keys the child's identity and its remove button, and the element
is kept iff its wrapper's flag stayed false. -/
def iterateListRetain (elems : List Value) (idx : Nat)
    (removeClicked : Nat → Bool) (childUpdate : Nat → Value → Value) :
    List Value :=
  match elems with
  | [] => []
  | e :: rest =>
    let e2 := childUpdate idx e
    let item := DeleteMe.proberow ⟨false⟩ (removeClicked idx)
    if item.delete then iterateListRetain rest (idx + 1) removeClicked childUpdate
    else e2 :: iterateListRetain rest (idx + 1) removeClicked childUpdate

/-- The code's `reset_to` guard: when both bounds are present, `min ≤ max`. -/
def validRangeI : Option Int → Option Int → Bool
  | some a, some b => decide (a ≤ b)
  | _, _ => true

/-- The code's `reset_to` guard on the Float arm. -/
def validRangeQ : Option ℚ → Option ℚ → Bool
  | some a, some b => decide (a ≤ b)
  | _, _ => true

/-- Spec-side: "the integer cast of v truncating toward zero" (floor for
nonnegative, ceiling for negative). -/
def specTruncQ (q : ℚ) : Int :=
  if 0 ≤ q then ⌊q⌋ else ⌈q⌉

/-- Spec-side: "clamped into [min, max], where an absent bound leaves that
side unclamped". -/
def specClampOptI (mn mx : Option Int) (x : Int) : Int :=
  let x1 := match mn with | some a => max a x | none => x
  match mx with | some b => min b x1 | none => x1

/-- Spec-side: the Float-to-Int conversion of C3, "the integer cast of v
truncating toward zero, then clamped into [min, max]". -/
def specClampedCastToInt (mn mx : Option Int) (q : ℚ) : Int :=
  specClampOptI mn mx (specTruncQ q)

/-- Spec-side clamping on the float side. -/
def specClampOptQ (mn mx : Option ℚ) (x : ℚ) : ℚ :=
  let x1 := match mn with | some a => max a x | none => x
  match mx with | some b => min b x1 | none => x1

/-- Spec-side: the Int-to-Float conversion of C3, "widen the integer to float
and clamp it into [min, max]". -/
def specWidenClampToFloat (mn mx : Option ℚ) (n : Int) : ℚ :=
  specClampOptQ mn mx (n : ℚ)

/-- Spec-side retention filter of C8: "the single retention-filter pass
keeping exactly the unmarked elements, preserving the relative order". -/
def specRetention (elems : List Value) (marked : Nat → Bool) : List Value :=
  (elems.enum.filter (fun p => !(marked p.1))).map Prod.snd

/-! ## Helper lemmas -/

/-- The code's float-to-int cast (`tdiv` of numerator by denominator) is
truncation toward zero: floor for nonnegative rationals, ceiling for negative
ones. -/
theorem ratTrunc_eq_specTruncQ (q : ℚ) : ratTrunc q = specTruncQ q := by
  unfold ratTrunc specTruncQ
  rcases le_or_lt 0 q with h | h
  · rw [if_pos h, Rat.floor_def]
    exact Int.tdiv_eq_ediv (Rat.num_nonneg.mpr h) (Int.ofNat_nonneg q.den)
  · rw [if_neg (not_le.mpr h)]
    have h1 : q.num.tdiv q.den = -((-q.num).tdiv q.den) := by
      rw [Int.neg_tdiv, neg_neg]
    have h2 : (-q.num).tdiv q.den = (-q.num) / q.den := by
      refine Int.tdiv_eq_ediv ?_ (Int.ofNat_nonneg q.den)
      have := Rat.num_nonneg.not.mpr (not_le.mpr h)
      omega
    have h3 : ⌊-q⌋ = (-q.num) / q.den := by
      rw [Rat.floor_def, Rat.num_neg_eq_neg_num, Rat.den_neg_eq_den]
    rw [h1, h2, ← h3, ← Int.ceil_neg, neg_neg]

/-- Rust `clamp` coincides with min-then-max clamping when the range is
valid (Int). -/
theorem clampI_eq {a b : Int} (h : a ≤ b) (x : Int) :
    clampI x a b = min b (max a x) := by
  unfold clampI
  split_ifs <;> omega

/-- Rust `clamp` coincides with min-then-max clamping when the range is
valid (rational model of f64). -/
theorem clampQ_eq {a b : ℚ} (h : a ≤ b) (x : ℚ) :
    clampQ x a b = min b (max a x) := by
  unfold clampQ
  split_ifs with h1 h2
  · rw [max_eq_left (le_of_lt h1), min_eq_right h]
  · rw [max_eq_right (le_of_not_lt h1), min_eq_left (le_of_lt h2)]
  · rw [max_eq_right (le_of_not_lt h1), min_eq_right (le_of_not_lt h2)]

/-- The retain loop of `iterate_inner`, from any start index, is the indexed
retention filter. -/
theorem iterateListRetain_eq (elems : List Value) (n : Nat)
    (rc : Nat → Bool) :
    iterateListRetain elems n rc (fun _ e => e)
      = ((List.enumFrom n elems).filter (fun p => !(rc p.1))).map Prod.snd := by
  induction elems generalizing n with
  | nil => rfl
  | cons e rest ih =>
    rw [iterateListRetain, List.enumFrom]
    cases h : rc n <;>
      simp [DeleteMe.proberow, h, ih]

/-- A key absent from the association list has no entries. -/
theorem countKey_eq_zero_of_not_mem (m : List (String × Value)) (k : String)
    (h : k ∉ m.map Prod.fst) : countKey m k = 0 := by
  induction m with
  | nil => rfl
  | cons p rest ih =>
    simp only [List.map_cons, List.mem_cons] at h
    push_neg at h
    unfold countKey
    rw [List.filter_cons]
    have : (p.1 == k) = false := by
      simp [beq_eq_false_iff_ne]
      exact fun hk => h.1 hk.symm
    rw [this]
    exact ih h.2

/-- Rust `HashMap::insert` semantics: with pairwise-distinct keys, the inserted
key has exactly one entry afterwards. -/
theorem countKey_mapInsert (m : List (String × Value)) (k : String) (v : Value)
    (h : (m.map Prod.fst).Nodup) : countKey (mapInsert m k v) k = 1 := by
  induction m with
  | nil => simp [mapInsert, countKey]
  | cons p rest ih =>
    rw [List.map_cons, List.nodup_cons] at h
    unfold mapInsert
    split_ifs with hk
    · unfold countKey
      rw [List.filter_cons]
      simp only [beq_self_eq_true]
      have : countKey rest k = 0 :=
        countKey_eq_zero_of_not_mem rest k (hk ▸ h.1)
      unfold countKey at this
      simp [this]
    · unfold countKey
      rw [List.filter_cons]
      have : (p.1 == k) = false := by
        simp [beq_eq_false_iff_ne]; exact hk
      rw [this]
      exact ih h.2

/-- Rust `HashMap::insert` semantics: lookup of the inserted key returns the new
value. -/
theorem lookupKey_mapInsert (m : List (String × Value)) (k : String)
    (v : Value) : lookupKey (mapInsert m k v) k = some v := by
  induction m with
  | nil => simp [mapInsert, lookupKey]
  | cons p rest ih =>
    unfold mapInsert
    split_ifs with hk
    · simp [lookupKey, List.find?]
    · unfold lookupKey
      rw [List.find?]
      have : (p.1 == k) = false := by
        simp [beq_eq_false_iff_ne]; exact hk
      rw [this]
      exact ih

/-! ## Shared probe-evaluation lemmas -/

/-- Clicking the convert button of the Float-under-Int-schema mismatch row
replaces the value with the clamped truncating cast (valid range). -/
theorem probeInt_float_click_eq (mn mx : Option Int) (q : ℚ)
    (st : ProbeState) (style : Style) (hI : validRangeI mn mx = true) :
    probe (some (.int mn mx)) (.float q) st style
        { Interaction.idle with clicked := true }
      = ⟨[.strong ("Expected integer, but is " ++ (Value.float q).kind ++ " instead"),
          .smallButton ("Convert to " ++ toString (specClampedCastToInt mn mx q)),
          .strong "?"],
         .int (specClampedCastToInt mn mx q), st⟩ := by
  show probeInt mn mx (.float q) st _ = _
  rcases mn with _ | a <;> rcases mx with _ | b
  · simp [probeInt, probeIntGo, specClampedCastToInt, specClampOptI,
      ratTrunc_eq_specTruncQ, Interaction.idle]
  · simp [probeInt, probeIntGo, specClampedCastToInt, specClampOptI,
      ratTrunc_eq_specTruncQ, Interaction.idle]
  · simp [probeInt, probeIntGo, specClampedCastToInt, specClampOptI,
      ratTrunc_eq_specTruncQ, Interaction.idle]
  · simp only [validRangeI, decide_eq_true_eq] at hI
    simp [probeInt, hI, probeIntGo, specClampedCastToInt, specClampOptI,
      clampI_eq hI, ratTrunc_eq_specTruncQ, Interaction.idle]

/-- Clicking the convert button of the Int-under-Float-schema mismatch row
replaces the value with the clamped widened float (valid range). -/
theorem probeFloat_int_click_eq (c d : Option ℚ) (n : Int)
    (st : ProbeState) (style : Style) (hQ : validRangeQ c d = true) :
    probe (some (.float c d)) (.int n) st style
        { Interaction.idle with clicked := true }
      = ⟨[.strong ("Expected integer, but is " ++ (Value.int n).kind ++ " instead"),
          .smallButton ("Convert to " ++ ratDisplay1 (specWidenClampToFloat c d n)),
          .strong "?"],
         .float (specWidenClampToFloat c d n), st⟩ := by
  show probeFloat c d (.int n) st _ = _
  rcases c with _ | a <;> rcases d with _ | b
  · simp [probeFloat, probeFloatGo, specWidenClampToFloat, specClampOptQ,
      Interaction.idle]
  · simp [probeFloat, probeFloatGo, specWidenClampToFloat, specClampOptQ,
      Interaction.idle]
  · simp [probeFloat, probeFloatGo, specWidenClampToFloat, specClampOptQ,
      Interaction.idle]
  · simp only [validRangeQ, decide_eq_true_eq] at hQ
    simp [probeFloat, hQ, probeFloatGo, specWidenClampToFloat, specClampOptQ,
      clampQ_eq hQ, Interaction.idle]

/-- With a matching Int value and a valid range, an idle probe dispatches to
the range-aware editor and leaves the value unchanged. -/
theorem probeInt_int_idle_eq (mn mx : Option Int) (X : Int)
    (st : ProbeState) (style : Style) (hI : validRangeI mn mx = true) :
    probe (some (.int mn mx)) (.int X) st style Interaction.idle
      = ⟨[.editorInt mn mx], .int X, st⟩ := by
  show probeInt mn mx (.int X) st _ = _
  rcases mn with _ | a <;> rcases mx with _ | b
  · simp [probeInt, probeIntGo, Interaction.idle]
  · simp [probeInt, probeIntGo, Interaction.idle]
  · simp [probeInt, probeIntGo, Interaction.idle]
  · simp only [validRangeI, decide_eq_true_eq] at hI
    simp [probeInt, hI, probeIntGo, Interaction.idle]

/-- With a matching Float value and a valid range, an idle probe dispatches to
the range-aware editor and leaves the value unchanged. -/
theorem probeFloat_float_idle_eq (c d : Option ℚ) (X : ℚ)
    (st : ProbeState) (style : Style) (hQ : validRangeQ c d = true) :
    probe (some (.float c d)) (.float X) st style Interaction.idle
      = ⟨[.editorFloat c d], .float X, st⟩ := by
  show probeFloat c d (.float X) st _ = _
  rcases c with _ | a <;> rcases d with _ | b
  · simp [probeFloat, probeFloatGo, Interaction.idle]
  · simp [probeFloat, probeFloatGo, Interaction.idle]
  · simp [probeFloat, probeFloatGo, Interaction.idle]
  · simp only [validRangeQ, decide_eq_true_eq] at hQ
    simp [probeFloat, hQ, probeFloatGo, Interaction.idle]

/-! ## Claim theorems -/

/-- C1: for every Int or Float schema whose min and max are both present with
min > max, probing any value renders exactly the single invalid-range message
(bounds substituted), offers no recovery button, performs no mutation of the
value for any interaction, and short-circuits before any dispatch on the
value's variant (the result is uniform in the value). -/
theorem claim1_invalid_range_short_circuit (a b : Int) (c d : ℚ)
    (hI : b < a) (hQ : d < c) (v : Value) (st : ProbeState) (style : Style)
    (i : Interaction) :
    probe (some (.int (some a) (some b))) v st style i
      = ⟨[invalid_range (toString a) (toString b)], v, st⟩
  ∧ probe (some (.float (some c) (some d))) v st style i
      = ⟨[invalid_range (ratDisplay c) (ratDisplay d)], v, st⟩ := by
  constructor
  · show probeInt (some a) (some b) v st i = _
    simp only [probeInt]
    rw [if_neg (not_le.mpr hI)]
  · show probeFloat (some c) (some d) v st i = _
    simp only [probeFloat]
    rw [if_neg (not_le.mpr hQ)]

/-- Witness for C1 at `min = 5, max = 1` over a Bool value: the rendered row
is exactly the substituted message and the value survives untouched. -/
theorem claim1_invalid_range_short_circuit_witness :
    (1 : Int) < 5 ∧ (1 : ℚ) < 5 ∧
    (probe (some (.int (some 5) (some 1))) (.bool true) ⟨.bool, ""⟩ ⟨"+", "-"⟩
        Interaction.idle).render
      = [.strong "Invalid range. `min = 5` must be not greater than `max = 1`."] ∧
    (probe (some (.int (some 5) (some 1))) (.bool true) ⟨.bool, ""⟩ ⟨"+", "-"⟩
        Interaction.idle).value = .bool true := by
  have hq : (1 : ℚ) < 5 := by norm_num
  have h := claim1_invalid_range_short_circuit 5 1 5 1 (by decide) hq
    (.bool true) ⟨.bool, ""⟩ ⟨"+", "-"⟩ Interaction.idle
  refine ⟨by decide, hq, ?_, ?_⟩
  · rw [h.1]
    decide
  · rw [h.1]

/-- C5: the default value of every schema has the schema's kind, and the kind
labels range over the fixed lowercase set. -/
theorem claim5_default_value_kind (d : Desc) :
    d.default_value.kind = d.kind ∧
    d.kind ∈ ["bool", "int", "float", "string", "list", "map"] := by
  cases d with
  | string variants =>
    refine ⟨?_, by simp [Desc.kind]⟩
    cases h : variants.bind List.head? <;>
      simp [Desc.default_value, Desc.kind, Value.kind, h]
  | _ => exact ⟨rfl, by simp [Desc.kind]⟩

/-- C6: `default_value` returns exactly Bool(false); Int(min) (0 when absent);
Float(min) (0.0 when absent); String(first variant) (empty when absent or
empty); the empty List; the empty Map. -/
theorem claim6_default_value_exact :
    Desc.default_value .bool = .bool false
  ∧ (∀ (a : Int) (mx : Option Int),
      Desc.default_value (.int (some a) mx) = .int a)
  ∧ (∀ mx : Option Int, Desc.default_value (.int none mx) = .int 0)
  ∧ (∀ (c : ℚ) (mx : Option ℚ),
      Desc.default_value (.float (some c) mx) = .float c)
  ∧ (∀ mx : Option ℚ, Desc.default_value (.float none mx) = .float 0)
  ∧ (∀ (s : String) (rest : List String),
      Desc.default_value (.string (some (s :: rest))) = .string s)
  ∧ Desc.default_value (.string (some [])) = .string ""
  ∧ Desc.default_value (.string none) = .string ""
  ∧ (∀ e : Option Desc, Desc.default_value (.list e) = .list [])
  ∧ (∀ vd : Option Desc, Desc.default_value (.map vd) = .map []) :=
  ⟨rfl, fun _ _ => rfl, fun _ => rfl, fun _ _ => rfl, fun _ => rfl,
   fun _ _ => rfl, rfl, rfl, fun _ => rfl, fun _ => rfl⟩

/-- C10: with both bounds present and min > max, `default_value` still returns
Int(min) (resp. Float(min)), which lies outside the stated range [min, max]
(the range check is never consulted). -/
theorem claim10_default_ignores_range (a b : Int) (c d : ℚ)
    (hI : b < a) (hQ : d < c) :
    Desc.default_value (.int (some a) (some b)) = .int a
  ∧ ¬(a ≤ a ∧ a ≤ b)
  ∧ Desc.default_value (.float (some c) (some d)) = .float c
  ∧ ¬(c ≤ c ∧ c ≤ d) :=
  ⟨rfl, fun h => absurd h.2 (not_le.mpr hI),
   rfl, fun h => absurd h.2 (not_le.mpr hQ)⟩

/-- Witness for C10 at `min = 5, max = 1` (Int) and `min = 5.0, max = 1.0`
(Float). -/
theorem claim10_default_ignores_range_witness :
    (1 : Int) < 5 ∧ (1 : ℚ) < 5 ∧
    Desc.default_value (.int (some 5) (some 1)) = .int 5 ∧
    ¬((5 : Int) ≤ 5 ∧ (5 : Int) ≤ 1) := by
  have hq : (1 : ℚ) < 5 := by norm_num
  have h := claim10_default_ignores_range 5 1 5 1 (by decide) hq
  exact ⟨by decide, hq, h.1, h.2.1⟩

/-- C2 (code evaluation at the failing inputs): the Float-schema mismatch row
announces "Expected integer" rather than naming "float", and the Map-schema
mismatch row announces "Expected list" rather than naming "map". -/
theorem claim2_mismatch_label_eval :
    (probe (some (.float none none)) (.bool true) ⟨.bool, ""⟩ ⟨"+", "-"⟩
        Interaction.idle).render
      = [.strong "Expected integer, but is bool instead",
         .smallButton "Reset to 0", .strong "?"]
  ∧ (probe (some (.map none)) (.int 7) ⟨.bool, ""⟩ ⟨"+", "-"⟩
        Interaction.idle).render
      = [.strong "Expected list, but is int instead",
         .smallButton "Reset to empty map", .strong "?"] := by
  constructor <;> decide

/-- C8: after one frame, the list equals the single retention-filter pass
keeping exactly the unmarked elements in their original relative order; in
particular a 3-element list with index 1 marked keeps elements 0 and 2 in
order. -/
theorem claim8_list_retention (elems : List Value) (rc : Nat → Bool) :
    iterateListRetain elems 0 rc (fun _ e => e) = specRetention elems rc
  ∧ iterateListRetain [.int 10, .int 20, .int 30] 0 (fun i => i == 1)
      (fun _ e => e) = [.int 10, .int 30] := by
  constructor
  · rw [specRetention, List.enum]
    exact iterateListRetain_eq elems 0 rc
  · rfl

/-- C3: under an Int schema with a valid range, the conversion offered on the
Float-mismatch button, and applied on click, is the truncating-toward-zero
integer cast clamped into [min, max] (absent bounds unclamped); symmetrically,
under a Float schema an Int value is widened to float and clamped. -/
theorem claim3_convert_clamped_cast (mn mx : Option Int) (c d : Option ℚ)
    (q : ℚ) (n : Int) (st : ProbeState) (style : Style)
    (hI : validRangeI mn mx = true) (hQ : validRangeQ c d = true) :
    ((probe (some (.int mn mx)) (.float q) st style
        { Interaction.idle with clicked := true }).value
      = .int (specClampedCastToInt mn mx q)
    ∧ .smallButton ("Convert to " ++ toString (specClampedCastToInt mn mx q))
        ∈ (probe (some (.int mn mx)) (.float q) st style
            { Interaction.idle with clicked := true }).render)
  ∧ ((probe (some (.float c d)) (.int n) st style
        { Interaction.idle with clicked := true }).value
      = .float (specWidenClampToFloat c d n)
    ∧ .smallButton ("Convert to " ++ ratDisplay1 (specWidenClampToFloat c d n))
        ∈ (probe (some (.float c d)) (.int n) st style
            { Interaction.idle with clicked := true }).render) := by
  have h1 := probeInt_float_click_eq mn mx q st style hI
  have h2 := probeFloat_int_click_eq c d n st style hQ
  refine ⟨⟨?_, ?_⟩, ?_, ?_⟩
  · rw [h1]
  · rw [h1]
    simp
  · rw [h2]
  · rw [h2]
    simp

/-- Witness for C3: schema Int[0,3] with Float 7 converts to Int 3; schema
Float[0,3] with Int -5 converts to Float 0. -/
theorem claim3_convert_clamped_cast_witness :
    validRangeI (some 0) (some 3) = true ∧ validRangeQ (some 0) (some 3) = true ∧
    (probe (some (.int (some 0) (some 3))) (.float 7) ⟨.bool, ""⟩ ⟨"+", "-"⟩
        { Interaction.idle with clicked := true }).value = .int 3 ∧
    (probe (some (.float (some 0) (some 3))) (.int (-5)) ⟨.bool, ""⟩ ⟨"+", "-"⟩
        { Interaction.idle with clicked := true }).value = .float 0 := by
  have h := claim3_convert_clamped_cast (some 0) (some 3) (some 0) (some 3)
    7 (-5) ⟨.bool, ""⟩ ⟨"+", "-"⟩ (by decide) (by decide)
  refine ⟨by decide, by decide, ?_, ?_⟩
  · rw [h.1.1]
    have hs : specClampedCastToInt (some 0) (some 3) 7 = 3 := by
      rw [specClampedCastToInt, ← ratTrunc_eq_specTruncQ]
      decide
    rw [hs]
  · rw [h.2.1]
    have hs : specWidenClampToFloat (some 0) (some 3) (-5) = 0 := by
      norm_num [specWidenClampToFloat, specClampOptQ]
    rw [hs]

/-- C4: converting a mismatched Float under an Int schema (valid range) and
re-probing the now-matching value dispatches to the range-aware editor and
performs no further coercion (convert-then-reprobe is a fixed point); likewise
for Int under a Float schema. -/
theorem claim4_convert_fixed_point (mn mx : Option Int) (c d : Option ℚ)
    (q : ℚ) (n : Int) (st : ProbeState) (style : Style)
    (hI : validRangeI mn mx = true) (hQ : validRangeQ c d = true) :
    probe (some (.int mn mx))
        ((probe (some (.int mn mx)) (.float q) st style
            { Interaction.idle with clicked := true }).value) st style
        Interaction.idle
      = ⟨[.editorInt mn mx],
         (probe (some (.int mn mx)) (.float q) st style
            { Interaction.idle with clicked := true }).value, st⟩
  ∧ probe (some (.float c d))
        ((probe (some (.float c d)) (.int n) st style
            { Interaction.idle with clicked := true }).value) st style
        Interaction.idle
      = ⟨[.editorFloat c d],
         (probe (some (.float c d)) (.int n) st style
            { Interaction.idle with clicked := true }).value, st⟩ := by
  constructor
  · rw [probeInt_float_click_eq mn mx q st style hI]
    exact probeInt_int_idle_eq mn mx (specClampedCastToInt mn mx q) st style hI
  · rw [probeFloat_int_click_eq c d n st style hQ]
    exact probeFloat_float_idle_eq c d (specWidenClampToFloat c d n) st style hQ

/-- Witness for C4 at schema Int[0,3] / Float 7 and Float[0,3] / Int -5. -/
theorem claim4_convert_fixed_point_witness :
    validRangeI (some 0) (some 3) = true ∧ validRangeQ (some 0) (some 3) = true ∧
    probe (some (.int (some 0) (some 3)))
        ((probe (some (.int (some 0) (some 3))) (.float 7) ⟨.bool, ""⟩ ⟨"+", "-"⟩
            { Interaction.idle with clicked := true }).value) ⟨.bool, ""⟩ ⟨"+", "-"⟩
        Interaction.idle
      = ⟨[.editorInt (some 0) (some 3)],
         (probe (some (.int (some 0) (some 3))) (.float 7) ⟨.bool, ""⟩ ⟨"+", "-"⟩
            { Interaction.idle with clicked := true }).value, ⟨.bool, ""⟩⟩ := by
  have h := claim4_convert_fixed_point (some 0) (some 3) (some 0) (some 3)
    7 (-5) ⟨.bool, ""⟩ ⟨"+", "-"⟩ (by decide) (by decide)
  exact ⟨by decide, by decide, h.1⟩

/-- C7: clicking the map add affordance inserts the pending key mapped to the
element schema's default value and clears the pending-key buffer; with the
hash map's distinct-key invariant, an already-present key is overwritten so
the result has exactly one entry for that key, holding the new value. -/
theorem claim7_map_insert_overwrites (d : Desc) (values : List (String × Value))
    (st : ProbeState) (style : Style) (k : String)
    (hkeys : (values.map Prod.fst).Nodup) :
    (probe (some (.map (some d))) (.map values) st style
        { Interaction.idle with clicked := true, editKey := some k }).value
      = .map (mapInsert values k d.default_value)
  ∧ (probe (some (.map (some d))) (.map values) st style
        { Interaction.idle with clicked := true, editKey := some k }).state.newKey
      = ""
  ∧ countKey (mapInsert values k d.default_value) k = 1
  ∧ lookupKey (mapInsert values k d.default_value) k = some d.default_value :=
  ⟨rfl, rfl, countKey_mapInsert values k _ hkeys, lookupKey_mapInsert values k _⟩

/-- Witness for C7: inserting key "a" (schema Bool) into {"a": Int(1)}
overwrites the entry, leaving exactly one "a" entry with the new value, and
clears the key buffer. -/
theorem claim7_map_insert_overwrites_witness :
    ((([("a", Value.int 1)] : List (String × Value)).map Prod.fst).Nodup) ∧
    (probe (some (.map (some .bool))) (.map [("a", .int 1)]) ⟨.bool, "a"⟩
        ⟨"+", "-"⟩ { Interaction.idle with clicked := true, editKey := some "a" }).value
      = .map [("a", .bool false)] ∧
    (probe (some (.map (some .bool))) (.map [("a", .int 1)]) ⟨.bool, "a"⟩
        ⟨"+", "-"⟩ { Interaction.idle with clicked := true, editKey := some "a" }).state.newKey
      = "" ∧
    countKey [("a", Value.bool false)] "a" = 1 := by
  have h := claim7_map_insert_overwrites .bool [("a", .int 1)] ⟨.bool, "a"⟩
    ⟨"+", "-"⟩ "a" (by decide)
  refine ⟨by decide, ?_, h.2.1, ?_⟩
  · rw [h.1]
    rfl
  · exact h.2.2.1

/-- C9: a probe frame with no widget interaction leaves the value unchanged,
for every schema/value pair: every mutation is guarded by an explicit click or
edit, so idle re-rendering is mutation-free. -/
theorem claim9_idle_no_mutation (desc : Option Desc) (v : Value)
    (st : ProbeState) (style : Style) :
    (probe desc v st style Interaction.idle).value = v := by
  rcases desc with _ | dsc
  · rfl
  cases dsc with
  | bool => cases v <;> rfl
  | int mn mx =>
    show (probeInt mn mx v st Interaction.idle).value = v
    rcases mn with _ | a <;> rcases mx with _ | b
    · cases v <;> rfl
    · cases v <;> rfl
    · cases v <;> rfl
    · by_cases hab : a ≤ b
      · simp only [probeInt, if_pos hab]
        cases v <;> rfl
      · simp only [probeInt, if_neg hab]
  | float mn mx =>
    show (probeFloat mn mx v st Interaction.idle).value = v
    rcases mn with _ | a <;> rcases mx with _ | b
    · cases v <;> rfl
    · cases v <;> rfl
    · cases v <;> rfl
    · by_cases hab : a ≤ b
      · simp only [probeFloat, if_pos hab]
        cases v <;> rfl
      · simp only [probeFloat, if_neg hab]
  | string variants =>
    show (probeString variants v st Interaction.idle).value = v
    rcases variants with _ | vs <;> cases v <;> rfl
  | list elem =>
    show (probeList elem v st style Interaction.idle).value = v
    rcases elem with _ | d <;> cases v <;> rfl
  | map vd =>
    show (probeMap vd v st style Interaction.idle).value = v
    rcases vd with _ | d <;> cases v <;> rfl

end EguiAny
